import Mathlib

/-!
Verification of the expiring-credential single-flight cache of the
`wechat-minapp` client (`src/client.rs`, `src/access_token.rs`,
`src/error.rs`).

The embedding models the concurrency-relevant state of a `Client` — the
`RwLock<AccessToken>`, the `AtomicBool` refresh flag and the tokio `Notify`
wakeup channel — as an explicit state record, and each concurrent call to
`access_token` / `stable_access_token` as a thread with a program counter
ranging over the micro-steps of those functions.  Interleavings are explored
by an executable `step` function driven by a schedule of thread indices.
Timestamps (`chrono::DateTime<Utc>`) are modelled as integers counting
seconds; `Utc::now()` is a fixed value `now` for the duration of one
episode.  The injected network fetch (`get_access_token` /
`get_stable_access_token`) is modelled by an oracle list of outcomes,
consumed one entry per invocation.
-/

namespace WechatMinapp

/-- Model of `error::Error` (`src/error.rs`).  Variants wrapping foreign
error types (`UnpadError`, `reqwest::Error`, ...) carry their rendering as a
`String`. -/
inductive Error where
  | system (msg : String)
  | invalidCredential (msg : String)
  | invalidGrantType (msg : String)
  | invalidAppId (msg : String)
  | invalidCode (msg : String)
  | invalidParameter (msg : String)
  | invalidSecret (msg : String)
  | forbiddenIp (msg : String)
  | codeBlocked (msg : String)
  | secretFrozen (msg : String)
  | missingAccessToken (msg : String)
  | missingAppId (msg : String)
  | missingSecret (msg : String)
  | missingCode (msg : String)
  | requiredPostMethod (msg : String)
  | dailyRequestLimitExceeded (msg : String)
  | rateLimitExceeded (msg : String)
  | forbiddenToken (msg : String)
  | accountFrozen (msg : String)
  | thirdPartyToken (msg : String)
  | sessionKeyNotExistedOrExpired (msg : String)
  | invalidSignatureMethod (msg : String)
  | invalidSignature (msg : String)
  | confirmRequired (msg : String)
  | requestDeniedOneDay (msg : String)
  | requestDeniedOneHour (msg : String)
  | unpad (msg : String)
  | aesInvalidLength (msg : String)
  | base64Decode (msg : String)
  | reqwest (msg : String)
  | serdeJson (msg : String)
  | internalServer (msg : String)
deriving DecidableEq, Repr

/-- Model of `access_token::AccessToken` (`src/access_token.rs`); the
contents of the `RwLock<AccessToken>` inside `Client`.  `expired_at` is a
timestamp in seconds. -/
structure AccessToken where
  access_token : String
  expired_at : Int
  force_refresh : Option Bool
deriving DecidableEq, Repr

/-- chrono's `Duration::minutes(5)` expressed in the model's time unit
(seconds): the safety margin of `is_token_expired`. -/
def fiveMinutes : Int := 5 * 60

/-- Model of `is_token_expired` (`src/client.rs`):
`token.expired_at.signed_duration_since(now) < Duration::minutes(5)`. -/
def is_token_expired (token : AccessToken) (now : Int) : Bool :=
  token.expired_at - now < fiveMinutes

/-- Rendering of an `Option<bool>` by Rust's derived `Debug`. -/
def optionBoolDebug : Option Bool → String
  | none => "None"
  | some true => "Some(true)"
  | some false => "Some(false)"

/-- Model of `impl Debug for AccessToken` (`src/access_token.rs`): a
`debug_struct("StableAccessToken")` whose `access_token` field is rendered
as the literal `"********"`, followed by the real `expired_at` and
`force_refresh` fields.  `fmtTime` abstracts chrono's `Debug` rendering of
`DateTime<Utc>`. -/
def accessTokenDebugFmt (fmtTime : Int → String) (t : AccessToken) : String :=
  "StableAccessToken \x7b access_token: \"********\", expired_at: "
    ++ fmtTime t.expired_at
    ++ ", force_refresh: " ++ optionBoolDebug t.force_refresh ++ " \x7d"

/-- Outcome of one invocation of the injected fetch
(`get_access_token` / `get_stable_access_token`): `Ok` carries the new
token string and the `expires_in` seconds reported by the server (the
builder stores `expired_at = Utc::now() + expires_in`); `error` carries the
propagated `Error`. -/
abbrev FetchResult := Except Error (String × Int)

instance {ε α : Type} [DecidableEq ε] [DecidableEq α] :
    DecidableEq (Except ε α) := fun a b =>
  match a, b with
  | .ok x, .ok y =>
    decidable_of_iff (x = y) (by constructor <;> (intro h; cases h; rfl))
  | .error x, .error y =>
    decidable_of_iff (x = y) (by constructor <;> (intro h; cases h; rfl))
  | .ok _, .error _ => isFalse (by intro h; cases h)
  | .error _, .ok _ => isFalse (by intro h; cases h)

/-- Which of the two token endpoints a call goes through: `normal` is
`Client::access_token` / `get_access_token`, `stable` is
`Client::stable_access_token` / `get_stable_access_token`. -/
inductive Flavor where
  | normal
  | stable
deriving DecidableEq, Repr

/-- Program counter of one in-flight call to `access_token` or
`stable_access_token`, one constructor per atomic micro-step of the Rust
code. -/
inductive Pc where
  /-- about to take the read lock for the step-1 fast path -/
  | fastRead
  /-- about to `compare_exchange(false, true)` on `refreshing` -/
  | cas
  /-- won the CAS; about to take the write lock (entry of `refresh_access_token`
  / `refresh_stable_access_token`) -/
  | acquireWrite
  /-- holds the write lock; about to re-test `is_token_expired` -/
  | doubleCheck
  /-- holds the write lock; the network fetch is in flight with the given
  scripted outcome -/
  | fetching (outcome : FetchResult)
  /-- refresh function returned; about to `refreshing.store(false)` -/
  | storeFalse (r : Except Error String)
  /-- about to call `notify.notify_waiters()` -/
  | notifyWaiters (r : Except Error String)
  /-- lost the CAS; the `notified()` future is not yet registered with the
  `Notify` (the window before its first poll) -/
  | preWait
  /-- registered with the `Notify`, suspended until a broadcast -/
  | waiting
  /-- released by a `notify_waiters` broadcast; about to re-take the read
  lock and re-read the token -/
  | woken
  /-- the call returned with the given result -/
  | done (r : Except Error String)
deriving DecidableEq, Repr

/-- One concurrent caller: its program counter, which endpoint flavor it
uses, and the `force_refresh` argument it passed (meaningful only for the
`stable` flavor; `access_token` takes no such argument). -/
structure Thread where
  pc : Pc
  flavor : Flavor
  force_refresh : Option Bool
deriving DecidableEq, Repr

/-- Shared state of one `Client` value (all clones share it through `Arc`s)
together with the set of in-flight calls and the fetch oracle.
`writerHeld` is whether the `RwLock`'s write guard is currently held;
read-lock critical sections (a read plus a clone) are modelled as single
atomic steps enabled only while no writer holds the lock.  `fetchLog`
records, per fetch invocation, the endpoint flavor and the `force_refresh`
value forwarded to `get_stable_access_token` (`none` for the normal
endpoint, which has no such parameter). -/
structure Sys where
  token : AccessToken
  refreshing : Bool
  writerHeld : Bool
  threads : List Thread
  oracle : List FetchResult
  fetchLog : List (Flavor × Option Bool)
  now : Int
deriving DecidableEq, Repr

/-- Effect of `notify.notify_waiters()` on one thread: tokio's
`Notify::notify_waiters` wakes exactly the tasks whose `notified()` futures
are already registered; it stores no permit for later registrants, so a
thread still at `preWait` is not released. -/
def wake (t : Thread) : Thread :=
  if t.pc = .waiting then { t with pc := .woken } else t

/-- One micro-step of thread `i`.  Returns `none` when thread `i` does not
exist, is finished, or is blocked (waiting for the lock, suspended on the
`Notify`, or fetching with an exhausted oracle). -/
def step (s : Sys) (i : Nat) : Option Sys :=
  match s.threads[i]? with
  | none => none
  | some t =>
    match t.pc with
    | .fastRead =>
      -- `let guard = self.access_token.read().await; if !is_token_expired(&guard) ...`
      if s.writerHeld then none
      else if !is_token_expired s.token s.now then
        some { s with threads :=
          s.threads.set i { t with pc := .done (.ok s.token.access_token) } }
      else
        some { s with threads := s.threads.set i { t with pc := .cas } }
    | .cas =>
      -- `self.refreshing.compare_exchange(false, true, AcqRel, Acquire)`
      if s.refreshing then
        some { s with threads := s.threads.set i { t with pc := .preWait } }
      else
        some { s with
          refreshing := true,
          threads := s.threads.set i { t with pc := .acquireWrite } }
    | .acquireWrite =>
      -- `let mut guard = self.access_token.write().await;`
      if s.writerHeld then none
      else
        some { s with
          writerHeld := true,
          threads := s.threads.set i { t with pc := .doubleCheck } }
    | .doubleCheck =>
      -- `if !is_token_expired(&guard) { return Ok(guard.access_token.clone()); }`
      if !is_token_expired s.token s.now then
        some { s with
          writerHeld := false,
          threads := s.threads.set i
            { t with pc := .storeFalse (.ok s.token.access_token) } }
      else
        -- the fetch is invoked here; its outcome arrives at the `fetching` step
        match s.oracle with
        | [] => none
        | o :: rest =>
          some { s with
            oracle := rest,
            fetchLog := s.fetchLog ++
              [(t.flavor, if t.flavor = .stable then t.force_refresh else none)],
            threads := s.threads.set i { t with pc := .fetching o } }
    | .fetching o =>
      match o with
      | .ok (tok, expires_in) =>
        -- `guard.access_token = builder.access_token.clone();
        --  guard.expired_at = builder.expired_at;` then the guard is dropped
        some { s with
          token := { s.token with
                     access_token := tok,
                     expired_at := s.now + expires_in },
          writerHeld := false,
          threads := s.threads.set i { t with pc := .storeFalse (.ok tok) } }
      | .error e =>
        -- the `?` operator drops the guard and propagates the error
        some { s with
          writerHeld := false,
          threads := s.threads.set i { t with pc := .storeFalse (.error e) } }
    | .storeFalse r =>
      -- `self.refreshing.store(false, Ordering::Release);`
      some { s with
        refreshing := false,
        threads := s.threads.set i { t with pc := .notifyWaiters r } }
    | .notifyWaiters r =>
      -- `self.notify.notify_waiters();` then return `r`
      some { s with threads :=
        (s.threads.map wake).set i { t with pc := .done r } }
    | .preWait =>
      -- first poll of `self.notify.notified()` registers the waiter
      some { s with threads := s.threads.set i { t with pc := .waiting } }
    | .waiting => none
    | .woken =>
      -- `let guard = self.access_token.read().await; Ok(guard.access_token.clone())`
      if s.writerHeld then none
      else
        some { s with threads :=
          s.threads.set i { t with pc := .done (.ok s.token.access_token) } }
    | .done _ => none

/-- Run a schedule: at each entry, perform that thread's next micro-step if
it is enabled, and skip it otherwise. -/
def run (s : Sys) : List Nat → Sys
  | [] => s
  | i :: rest => run ((step s i).getD s) rest

/-- One interleaving step by some thread. -/
def StepRel (s s' : Sys) : Prop := ∃ i, step s i = some s'

/-- Reachability under arbitrary interleavings. -/
def Reachable : Sys → Sys → Prop := Relation.ReflTransGen StepRel

/-- Model of the `Client` fields that select behaviour (`src/client.rs`):
the HTTP handle is omitted, and the shared `access_token` / `refreshing` /
`notify` state lives in `Sys`. -/
structure Client where
  app_id : String
  secret : String
  use_stable_token : Bool
deriving DecidableEq, Repr

/-- Model of `Client::new`: `use_stable_token` is `true`. -/
def Client.new (app_id secret : String) : Client :=
  { app_id := app_id, secret := secret, use_stable_token := true }

/-- Model of `Client::with_non_stable`: `use_stable_token` is `false`. -/
def Client.with_non_stable (app_id secret : String) : Client :=
  { app_id := app_id, secret := secret, use_stable_token := false }

/-- Which flavor `Client::token` dispatches to:
`stable_access_token(None)` when `use_stable_token`, else `access_token`. -/
def Client.tokenFlavor (c : Client) : Flavor :=
  if c.use_stable_token then .stable else .normal

/-- The `AccessToken` installed by `Client::new` / `Client::with_non_stable`:
empty-string sentinel, `expired_at = Utc::now()`, `force_refresh = None`. -/
def initialToken (now : Int) : AccessToken :=
  { access_token := "", expired_at := now, force_refresh := none }

/-- Initial system for one freshly constructed `Client` with the given
concurrent callers (flavor and `force_refresh` argument of each) and fetch
oracle. -/
def initSys (now : Int) (callers : List (Flavor × Option Bool))
    (oracle : List FetchResult) : Sys :=
  { token := initialToken now, refreshing := false, writerHeld := false,
    threads := callers.map (fun fc => { pc := .fastRead, flavor := fc.1,
                                        force_refresh := fc.2 }),
    oracle := oracle, fetchLog := [], now := now }

/-- Refresh ownership: a thread holds it from winning the CAS until its
`refreshing.store(false)`. -/
def Thread.owns (t : Thread) : Bool :=
  match t.pc with
  | .acquireWrite => true
  | .doubleCheck => true
  | .fetching _ => true
  | .storeFalse _ => true
  | _ => false

/-- Whether a thread currently has the network fetch in flight. -/
def Thread.inFetch (t : Thread) : Bool :=
  match t.pc with
  | .fetching _ => true
  | _ => false

/-- Whether a thread is inside the write-lock critical section of
`refresh_access_token` / `refresh_stable_access_token`. -/
def Thread.inWrite (t : Thread) : Bool :=
  match t.pc with
  | .doubleCheck => true
  | .fetching _ => true
  | _ => false

/-- Whether a thread has lost the CAS arbitration and is on the loser path
(pre-registration window, suspended, or released and about to re-read). -/
def Thread.lost (t : Thread) : Bool :=
  match t.pc with
  | .preWait => true
  | .waiting => true
  | .woken => true
  | _ => false

/-- Number of threads in a list satisfying a Boolean predicate. -/
def countB (p : Thread → Bool) : List Thread → Nat
  | [] => 0
  | t :: ts => (if p t then 1 else 0) + countB p ts

/-- Mutual-exclusion invariant of the refresh flag: at most one owner, and
an owner exists only while `refreshing` is set. -/
def OwnerInv (s : Sys) : Prop :=
  countB Thread.owns s.threads ≤ 1 ∧
    (s.refreshing = false → countB Thread.owns s.threads = 0)

/-- Write-lock invariant: at most one thread inside the write-lock critical
section, and only while the write guard is held. -/
def WriterInv (s : Sys) : Prop :=
  countB Thread.inWrite s.threads ≤ 1 ∧
    (s.writerHeld = false → countB Thread.inWrite s.threads = 0)

/-- Per-thread safety property of the loser path: thread `i` is on the
loser path or has already returned an `Ok` result. -/
def LoserSafe (i : Nat) (l : List Thread) : Prop :=
  ∀ t, l[i]? = some t → t.lost = true ∨ ∃ v, t.pc = .done (Except.ok v)

/-! ## Helper lemmas -/

theorem countB_set (p : Thread → Bool) (l : List Thread) (i : Nat) (t t' : Thread)
    (h : l[i]? = some t) :
    countB p (l.set i t') + (if p t then 1 else 0)
      = countB p l + (if p t' then 1 else 0) := by
  induction l generalizing i with
  | nil => simp at h
  | cons a l ih =>
    cases i with
    | zero =>
      simp only [List.getElem?_cons_zero, Option.some.injEq] at h
      subst h
      simp only [List.set, countB]
      omega
    | succ n =>
      simp only [List.getElem?_cons_succ] at h
      simp only [List.set, countB]
      have := ih n h
      omega

theorem countB_pos (p : Thread → Bool) (l : List Thread) (i : Nat) (t : Thread)
    (h : l[i]? = some t) (hp : p t = true) : 1 ≤ countB p l := by
  induction l generalizing i with
  | nil => simp at h
  | cons a l ih =>
    cases i with
    | zero =>
      simp only [List.getElem?_cons_zero, Option.some.injEq] at h
      subst h
      simp [countB, hp]
    | succ n =>
      simp only [List.getElem?_cons_succ] at h
      have := ih n h
      simp only [countB]
      omega

theorem countB_map_of_pres (p : Thread → Bool) (f : Thread → Thread)
    (hf : ∀ t, p (f t) = p t) (l : List Thread) :
    countB p (l.map f) = countB p l := by
  induction l with
  | nil => rfl
  | cons a l ih => simp [countB, hf, ih]

theorem countB_map_zero (p : Thread → Bool) {α : Type} (f : α → Thread)
    (hf : ∀ x, p (f x) = false) (l : List α) :
    countB p (l.map f) = 0 := by
  induction l with
  | nil => rfl
  | cons a l ih => simp [countB, hf, ih]

theorem owns_wake (t : Thread) : (wake t).owns = t.owns := by
  by_cases h : t.pc = .waiting <;> simp [wake, h, Thread.owns]

theorem inWrite_wake (t : Thread) : (wake t).inWrite = t.inWrite := by
  by_cases h : t.pc = .waiting <;> simp [wake, h, Thread.inWrite]

theorem inFetch_wake (t : Thread) : (wake t).inFetch = t.inFetch := by
  by_cases h : t.pc = .waiting <;> simp [wake, h, Thread.inFetch]

theorem step_eq_none_of_no_thread {s : Sys} {i : Nat}
    (h : s.threads[i]? = none) : step s i = none := by
  unfold step
  rw [h]

theorem reachable_run (s : Sys) (sched : List Nat) : Reachable s (run s sched) := by
  induction sched generalizing s with
  | nil => exact Relation.ReflTransGen.refl
  | cons i rest ih =>
    cases hi : step s i with
    | none => simpa [run, hi] using ih s
    | some s' =>
      have h1 : Reachable s s' := Relation.ReflTransGen.single ⟨i, hi⟩
      have h2 : run s (i :: rest) = run s' rest := by simp [run, hi]
      rw [h2]
      exact Relation.ReflTransGen.trans h1 (ih s')

theorem countB_set_congr (p : Thread → Bool) (l : List Thread) (i : Nat)
    (t t' : Thread) (h : l[i]? = some t) (hsame : p t' = p t) :
    countB p (l.set i t') = countB p l := by
  have hcs := countB_set p l i t t' h
  rw [hsame] at hcs
  cases hp : p t <;> rw [hp] at hcs <;> simp at hcs <;> omega

theorem ownerInv_step {s s' : Sys} {i : Nat} (h : step s i = some s')
    (hinv : OwnerInv s) : OwnerInv s' := by
  obtain ⟨hle, hz⟩ := hinv
  unfold step at h
  cases hg : s.threads[i]? with
  | none => simp [hg] at h
  | some t =>
    simp only [hg] at h
    split at h
    case _ hpc =>
      -- fastRead
      split at h
      · simp at h
      · split at h <;> cases h <;>
          exact ⟨by
            rw [countB_set_congr Thread.owns s.threads i t _ hg
              (by simp [Thread.owns, hpc])]
            exact hle,
            fun hr => by
            rw [countB_set_congr Thread.owns s.threads i t _ hg
              (by simp [Thread.owns, hpc])]
            exact hz hr⟩
    case _ hpc =>
      -- cas
      split at h
      · cases h
        exact ⟨by
          rw [countB_set_congr Thread.owns s.threads i t _ hg
            (by simp [Thread.owns, hpc])]
          exact hle,
          fun hr => by
          rw [countB_set_congr Thread.owns s.threads i t _ hg
            (by simp [Thread.owns, hpc])]
          exact hz hr⟩
      · rename_i hcond
        cases h
        have hf : s.refreshing = false := by
          revert hcond; cases s.refreshing <;> simp
        have h0 : countB Thread.owns s.threads = 0 := hz hf
        have hcs := countB_set Thread.owns s.threads i t
          { t with pc := .acquireWrite } hg
        have ho1 : Thread.owns t = false := by simp [Thread.owns, hpc]
        have ho2 : Thread.owns { t with pc := Pc.acquireWrite } = true := by
          simp [Thread.owns]
        rw [ho1, ho2] at hcs
        simp only [if_pos, if_neg, Bool.false_eq_true, ite_true, ite_false] at hcs
        refine ⟨?_, fun hr => ?_⟩
        · dsimp only
          omega
        · simp at hr
    case _ hpc =>
      -- acquireWrite
      split at h
      · simp at h
      · cases h
        exact ⟨by
          rw [countB_set_congr Thread.owns s.threads i t _ hg
            (by simp [Thread.owns, hpc])]
          exact hle,
          fun hr => by
          rw [countB_set_congr Thread.owns s.threads i t _ hg
            (by simp [Thread.owns, hpc])]
          exact hz hr⟩
    case _ hpc =>
      -- doubleCheck
      split at h
      · cases h
        exact ⟨by
          rw [countB_set_congr Thread.owns s.threads i t _ hg
            (by simp [Thread.owns, hpc])]
          exact hle,
          fun hr => by
          rw [countB_set_congr Thread.owns s.threads i t _ hg
            (by simp [Thread.owns, hpc])]
          exact hz hr⟩
      · split at h
        · simp at h
        · cases h
          exact ⟨by
            rw [countB_set_congr Thread.owns s.threads i t _ hg
              (by simp [Thread.owns, hpc])]
            exact hle,
            fun hr => by
            rw [countB_set_congr Thread.owns s.threads i t _ hg
              (by simp [Thread.owns, hpc])]
            exact hz hr⟩
    case _ o hpc =>
      -- fetching
      split at h <;> cases h <;>
        exact ⟨by
          rw [countB_set_congr Thread.owns s.threads i t _ hg
            (by simp [Thread.owns, hpc])]
          exact hle,
          fun hr => by
          rw [countB_set_congr Thread.owns s.threads i t _ hg
            (by simp [Thread.owns, hpc])]
          exact hz hr⟩
    case _ r hpc =>
      -- storeFalse
      cases h
      have hpos : 1 ≤ countB Thread.owns s.threads :=
        countB_pos Thread.owns s.threads i t hg (by simp [Thread.owns, hpc])
      have hcs := countB_set Thread.owns s.threads i t
        { t with pc := .notifyWaiters r } hg
      have ho1 : Thread.owns t = true := by simp [Thread.owns, hpc]
      have ho2 : Thread.owns { t with pc := Pc.notifyWaiters r } = false := by
        simp [Thread.owns]
      rw [ho1, ho2] at hcs
      simp only [if_pos, if_neg, Bool.false_eq_true, ite_true, ite_false] at hcs
      refine ⟨?_, fun _ => ?_⟩ <;> (dsimp only; omega)
    case _ r hpc =>
      -- notifyWaiters
      cases h
      have hgm : (s.threads.map wake)[i]? = some (wake t) := by
        rw [List.getElem?_map, hg]
        rfl
      have hwt : wake t = t := by simp [wake, hpc]
      rw [hwt] at hgm
      have hcs := countB_set_congr Thread.owns (s.threads.map wake) i t
        { t with pc := .done r } hgm (by simp [Thread.owns, hpc])
      rw [countB_map_of_pres Thread.owns wake owns_wake] at hcs
      exact ⟨by rw [hcs]; exact hle, fun hr => by rw [hcs]; exact hz hr⟩
    case _ hpc =>
      -- preWait
      cases h
      exact ⟨by
        rw [countB_set_congr Thread.owns s.threads i t _ hg
          (by simp [Thread.owns, hpc])]
        exact hle,
        fun hr => by
        rw [countB_set_congr Thread.owns s.threads i t _ hg
          (by simp [Thread.owns, hpc])]
        exact hz hr⟩
    case _ hpc =>
      -- waiting
      simp at h
    case _ hpc =>
      -- woken
      split at h
      · simp at h
      · cases h
        exact ⟨by
          rw [countB_set_congr Thread.owns s.threads i t _ hg
            (by simp [Thread.owns, hpc])]
          exact hle,
          fun hr => by
          rw [countB_set_congr Thread.owns s.threads i t _ hg
            (by simp [Thread.owns, hpc])]
          exact hz hr⟩
    case _ r hpc =>
      -- done
      simp at h

theorem countB_release (p : Thread → Bool) (l : List Thread) (i : Nat)
    (t t' : Thread) (hg : l[i]? = some t) (hin : p t = true)
    (hout : p t' = false) (hle : countB p l ≤ 1) :
    countB p (l.set i t') = 0 := by
  have hcs := countB_set p l i t t' hg
  rw [hin, hout] at hcs
  simp only [if_pos, if_neg, Bool.false_eq_true, ite_true, ite_false] at hcs
  omega

theorem writerInv_step {s s' : Sys} {i : Nat} (h : step s i = some s')
    (hinv : WriterInv s) : WriterInv s' := by
  obtain ⟨hle, hz⟩ := hinv
  unfold step at h
  cases hg : s.threads[i]? with
  | none => simp [hg] at h
  | some t =>
    simp only [hg] at h
    split at h
    case _ hpc =>
      -- fastRead
      split at h
      · simp at h
      · split at h <;> cases h <;>
          exact ⟨by
            rw [countB_set_congr Thread.inWrite s.threads i t _ hg
              (by simp [Thread.inWrite, hpc])]
            exact hle,
            fun hw => by
            rw [countB_set_congr Thread.inWrite s.threads i t _ hg
              (by simp [Thread.inWrite, hpc])]
            exact hz hw⟩
    case _ hpc =>
      -- cas
      split at h <;> cases h <;>
        exact ⟨by
          rw [countB_set_congr Thread.inWrite s.threads i t _ hg
            (by simp [Thread.inWrite, hpc])]
          exact hle,
          fun hw => by
          rw [countB_set_congr Thread.inWrite s.threads i t _ hg
            (by simp [Thread.inWrite, hpc])]
          exact hz hw⟩
    case _ hpc =>
      -- acquireWrite: guard ensures the write lock is free
      split at h
      · simp at h
      · rename_i hcond
        cases h
        have hwf : s.writerHeld = false := by
          revert hcond; cases s.writerHeld <;> simp
        have h0 : countB Thread.inWrite s.threads = 0 := hz hwf
        have hcs := countB_set Thread.inWrite s.threads i t
          { t with pc := .doubleCheck } hg
        have ho1 : Thread.inWrite t = false := by simp [Thread.inWrite, hpc]
        have ho2 : Thread.inWrite { t with pc := Pc.doubleCheck } = true := by
          simp [Thread.inWrite]
        rw [ho1, ho2] at hcs
        simp only [if_pos, if_neg, Bool.false_eq_true, ite_true, ite_false] at hcs
        refine ⟨?_, fun hw => ?_⟩
        · dsimp only
          omega
        · simp at hw
    case _ hpc =>
      -- doubleCheck
      have hpos : 1 ≤ countB Thread.inWrite s.threads :=
        countB_pos Thread.inWrite s.threads i t hg (by simp [Thread.inWrite, hpc])
      split at h
      · cases h
        have hcs := countB_set Thread.inWrite s.threads i t
          { t with pc := .storeFalse (.ok s.token.access_token) } hg
        have ho1 : Thread.inWrite t = true := by simp [Thread.inWrite, hpc]
        have ho2 : Thread.inWrite
            { t with pc := Pc.storeFalse (.ok s.token.access_token) } = false := by
          simp [Thread.inWrite]
        rw [ho1, ho2] at hcs
        simp only [if_pos, if_neg, Bool.false_eq_true, ite_true, ite_false] at hcs
        refine ⟨?_, fun _ => ?_⟩ <;> (dsimp only; omega)
      · split at h
        · simp at h
        · cases h
          exact ⟨by
            rw [countB_set_congr Thread.inWrite s.threads i t _ hg
              (by simp [Thread.inWrite, hpc])]
            exact hle,
            fun hw => by
            rw [countB_set_congr Thread.inWrite s.threads i t _ hg
              (by simp [Thread.inWrite, hpc])]
            exact hz hw⟩
    case _ o hpc =>
      -- fetching: both outcomes release the write lock
      split at h
      case _ o2 tok ein =>
        cases h
        have h0 := countB_release Thread.inWrite s.threads i t
          { t with pc := Pc.storeFalse (Except.ok tok) } hg
          (by simp [Thread.inWrite, hpc]) (by simp [Thread.inWrite]) hle
        exact ⟨by dsimp only; rw [h0]; omega,
          fun _ => by dsimp only; exact h0⟩
      case _ o2 e =>
        cases h
        have h0 := countB_release Thread.inWrite s.threads i t
          { t with pc := Pc.storeFalse (Except.error e) } hg
          (by simp [Thread.inWrite, hpc]) (by simp [Thread.inWrite]) hle
        exact ⟨by dsimp only; rw [h0]; omega,
          fun _ => by dsimp only; exact h0⟩
    case _ r hpc =>
      -- storeFalse
      cases h
      exact ⟨by
        rw [countB_set_congr Thread.inWrite s.threads i t _ hg
          (by simp [Thread.inWrite, hpc])]
        exact hle,
        fun hw => by
        rw [countB_set_congr Thread.inWrite s.threads i t _ hg
          (by simp [Thread.inWrite, hpc])]
        exact hz hw⟩
    case _ r hpc =>
      -- notifyWaiters
      cases h
      have hgm : (s.threads.map wake)[i]? = some (wake t) := by
        rw [List.getElem?_map, hg]
        rfl
      have hwt : wake t = t := by simp [wake, hpc]
      rw [hwt] at hgm
      have hcs := countB_set_congr Thread.inWrite (s.threads.map wake) i t
        { t with pc := .done r } hgm (by simp [Thread.inWrite, hpc])
      rw [countB_map_of_pres Thread.inWrite wake inWrite_wake] at hcs
      exact ⟨by rw [hcs]; exact hle, fun hw => by rw [hcs]; exact hz hw⟩
    case _ hpc =>
      -- preWait
      cases h
      exact ⟨by
        rw [countB_set_congr Thread.inWrite s.threads i t _ hg
          (by simp [Thread.inWrite, hpc])]
        exact hle,
        fun hw => by
        rw [countB_set_congr Thread.inWrite s.threads i t _ hg
          (by simp [Thread.inWrite, hpc])]
        exact hz hw⟩
    case _ hpc =>
      -- waiting
      simp at h
    case _ hpc =>
      -- woken
      split at h
      · simp at h
      · cases h
        exact ⟨by
          rw [countB_set_congr Thread.inWrite s.threads i t _ hg
            (by simp [Thread.inWrite, hpc])]
          exact hle,
          fun hw => by
          rw [countB_set_congr Thread.inWrite s.threads i t _ hg
            (by simp [Thread.inWrite, hpc])]
          exact hz hw⟩
    case _ r hpc =>
      -- done
      simp at h

theorem lost_wake (t : Thread) : (wake t).lost = t.lost := by
  by_cases h : t.pc = .waiting <;> simp [wake, h, Thread.lost]

theorem wake_eq_of_ne_waiting {t : Thread} (h : ¬ t.pc = .waiting) :
    wake t = t := by
  simp [wake, h]

theorem loserSafe_set {l : List Thread} {j : Nat} {u : Thread} (u' : Thread)
    (i : Nat) (hg : l[j]? = some u) (hP : LoserSafe i l)
    (hcase : (u.lost = true ∨ ∃ v, u.pc = .done (Except.ok v)) →
      (u'.lost = true ∨ ∃ v, u'.pc = .done (Except.ok v))) :
    LoserSafe i (l.set j u') := by
  intro t' ht'
  by_cases hij : j = i
  · subst hij
    rw [List.getElem?_set_self (List.getElem?_eq_some.mp hg).1] at ht'
    cases ht'
    exact hcase (hP u hg)
  · rw [List.getElem?_set_ne hij] at ht'
    exact hP t' ht'

theorem loserSafe_map_wake {l : List Thread} (i : Nat) (hP : LoserSafe i l) :
    LoserSafe i (l.map wake) := by
  intro t' ht'
  rw [List.getElem?_map] at ht'
  cases hg : l[i]? with
  | none => rw [hg] at ht'; cases ht'
  | some u =>
    rw [hg] at ht'
    cases ht'
    rcases hP u hg with hl | ⟨v, hv⟩
    · left
      rw [lost_wake]
      exact hl
    · right
      refine ⟨v, ?_⟩
      rw [wake_eq_of_ne_waiting (by rw [hv]; intro hc; cases hc)]
      exact hv

theorem loserSafe_step {s s' : Sys} {j : Nat} (h : step s j = some s')
    (i : Nat) (hP : LoserSafe i s.threads) : LoserSafe i s'.threads := by
  unfold step at h
  cases hg : s.threads[j]? with
  | none => simp [hg] at h
  | some u =>
    simp only [hg] at h
    split at h
    case _ hpc =>
      -- fastRead
      split at h
      · simp at h
      · split at h <;> cases h <;>
          exact loserSafe_set _ i hg hP (fun hd => by
            rcases hd with hl | ⟨v, hv⟩
            · simp [Thread.lost, hpc] at hl
            · rw [hpc] at hv; simp at hv)
    case _ hpc =>
      -- cas: the losing branch moves to preWait (still on the loser path)
      split at h <;> cases h
      · exact loserSafe_set _ i hg hP
          (fun _ => Or.inl (by simp [Thread.lost]))
      · exact loserSafe_set _ i hg hP (fun hd => by
          rcases hd with hl | ⟨v, hv⟩
          · simp [Thread.lost, hpc] at hl
          · rw [hpc] at hv; simp at hv)
    case _ hpc =>
      -- acquireWrite
      split at h
      · simp at h
      · cases h
        exact loserSafe_set _ i hg hP (fun hd => by
          rcases hd with hl | ⟨v, hv⟩
          · simp [Thread.lost, hpc] at hl
          · rw [hpc] at hv; simp at hv)
    case _ hpc =>
      -- doubleCheck
      split at h
      · cases h
        exact loserSafe_set _ i hg hP (fun hd => by
          rcases hd with hl | ⟨v, hv⟩
          · simp [Thread.lost, hpc] at hl
          · rw [hpc] at hv; simp at hv)
      · split at h
        · simp at h
        · cases h
          exact loserSafe_set _ i hg hP (fun hd => by
            rcases hd with hl | ⟨v, hv⟩
            · simp [Thread.lost, hpc] at hl
            · rw [hpc] at hv; simp at hv)
    case _ o hpc =>
      -- fetching
      split at h <;> cases h <;>
        exact loserSafe_set _ i hg hP (fun hd => by
          rcases hd with hl | ⟨v, hv⟩
          · simp [Thread.lost, hpc] at hl
          · rw [hpc] at hv; simp at hv)
    case _ r hpc =>
      -- storeFalse
      cases h
      exact loserSafe_set _ i hg hP (fun hd => by
        rcases hd with hl | ⟨v, hv⟩
        · simp [Thread.lost, hpc] at hl
        · rw [hpc] at hv; simp at hv)
    case _ r hpc =>
      -- notifyWaiters
      cases h
      have hgm : (s.threads.map wake)[j]? = some (wake u) := by
        rw [List.getElem?_map, hg]
        rfl
      rw [wake_eq_of_ne_waiting (by rw [hpc]; intro hc; cases hc)] at hgm
      exact loserSafe_set _ i hgm (loserSafe_map_wake i hP) (fun hd => by
        rcases hd with hl | ⟨v, hv⟩
        · simp [Thread.lost, hpc] at hl
        · rw [hpc] at hv; simp at hv)
    case _ hpc =>
      -- preWait: registering with the Notify keeps the thread on the loser path
      cases h
      exact loserSafe_set _ i hg hP
        (fun _ => Or.inl (by simp [Thread.lost]))
    case _ hpc =>
      -- waiting
      simp at h
    case _ hpc =>
      -- woken: the re-read returns Ok with the current token value
      split at h
      · simp at h
      · cases h
        exact loserSafe_set _ i hg hP
          (fun _ => Or.inr ⟨s.token.access_token, rfl⟩)
    case _ r hpc =>
      -- done
      simp at h

theorem ownerInv_reachable {s s' : Sys} (h : Reachable s s')
    (hinv : OwnerInv s) : OwnerInv s' := by
  induction h with
  | refl => exact hinv
  | tail _ hstep ih =>
    obtain ⟨i, hi⟩ := hstep
    exact ownerInv_step hi ih

theorem writerInv_reachable {s s' : Sys} (h : Reachable s s')
    (hinv : WriterInv s) : WriterInv s' := by
  induction h with
  | refl => exact hinv
  | tail _ hstep ih =>
    obtain ⟨i, hi⟩ := hstep
    exact writerInv_step hi ih

theorem loserSafe_reachable {s s' : Sys} (h : Reachable s s') (i : Nat)
    (hP : LoserSafe i s.threads) : LoserSafe i s'.threads := by
  induction h with
  | refl => exact hP
  | tail _ hstep ih =>
    obtain ⟨j, hj⟩ := hstep
    exact loserSafe_step hj i ih

theorem ownerInv_initSys (now : Int) (callers : List (Flavor × Option Bool))
    (oracle : List FetchResult) : OwnerInv (initSys now callers oracle) := by
  have h0 : countB Thread.owns (initSys now callers oracle).threads = 0 :=
    countB_map_zero Thread.owns _ (fun _ => by simp [Thread.owns]) callers
  exact ⟨by omega, fun _ => h0⟩

theorem writerInv_initSys (now : Int) (callers : List (Flavor × Option Bool))
    (oracle : List FetchResult) : WriterInv (initSys now callers oracle) := by
  have h0 : countB Thread.inWrite (initSys now callers oracle).threads = 0 :=
    countB_map_zero Thread.inWrite _ (fun _ => by simp [Thread.inWrite]) callers
  exact ⟨by omega, fun _ => h0⟩

theorem step_fastRead_blocked {s : Sys} {j : Nat} {u : Thread}
    (hj : s.threads[j]? = some u) (hpc : u.pc = .fastRead)
    (hw : s.writerHeld = true) : step s j = none := by
  unfold step
  simp [hj, hpc, hw]

theorem countB_mono (p q : Thread → Bool) (hpq : ∀ t, p t = true → q t = true)
    (l : List Thread) : countB p l ≤ countB q l := by
  induction l with
  | nil => simp [countB]
  | cons a l ih =>
    simp only [countB]
    cases hp : p a
    · simp
      omega
    · simp [hpq a hp]
      omega

theorem owns_of_inFetch (t : Thread) (h : t.inFetch = true) : t.owns = true := by
  cases hp : t.pc <;> simp [Thread.inFetch, hp] at h <;> simp [Thread.owns, hp]

/-! ## Claim theorems -/

/-- C4 counterexample: at the boundary `expires_at = now + 5 minutes` the
code's `is_token_expired` returns `false`, while the claimed predicate
`now() + margin >= expires_at` holds there. -/
theorem staleness_boundary_counterexample :
    is_token_expired { access_token := "T1", expired_at := 300,
                       force_refresh := none } 0 = false ∧
    (0 : Int) + fiveMinutes ≥ 300 := by
  exact ⟨rfl, by decide⟩

/-- C4 (amended): the staleness predicate is strict — `is_token_expired`
holds exactly when `now() + margin > expires_at` (equivalently
`expires_at - now < 5 minutes`), and at the boundary
`expires_at = now + 5 minutes` the token is NOT treated as stale. -/
theorem staleness_strict_margin (tok : AccessToken) (now : Int) :
    (is_token_expired tok now = true ↔ now + fiveMinutes > tok.expired_at) ∧
    is_token_expired { tok with expired_at := now + fiveMinutes } now = false := by
  constructor
  · simp only [is_token_expired, fiveMinutes, decide_eq_true_eq]
    omega
  · simp only [is_token_expired, fiveMinutes, decide_eq_false_iff_not]
    omega

/-- C10: the `Debug` rendering of an `AccessToken` is independent of the
secret token value — any two tokens agreeing on `expired_at` and
`force_refresh` render identically, with `"********"` in place of the
token string. -/
theorem debug_output_independent_of_token (fmtTime : Int → String)
    (t1 t2 : AccessToken) (he : t1.expired_at = t2.expired_at)
    (hf : t1.force_refresh = t2.force_refresh) :
    accessTokenDebugFmt fmtTime t1 = accessTokenDebugFmt fmtTime t2 := by
  unfold accessTokenDebugFmt
  rw [he, hf]

theorem debug_output_independent_of_token_witness :
    accessTokenDebugFmt toString
        { access_token := "real-secret-token-A", expired_at := 42,
          force_refresh := none }
      = accessTokenDebugFmt toString
        { access_token := "completely-different-B", expired_at := 42,
          force_refresh := none } :=
  debug_output_independent_of_token toString _ _ rfl rfl

/-- C2 (code bug): `stable_access_token(Some(true))` on a fresh token takes
the step-1 fast path and returns the cached value without ever invoking the
fetch — the `force_refresh` argument is never consulted by the staleness
check, for any value of the argument. -/
theorem force_refresh_does_not_bypass_fast_path (force : Option Bool) :
    ((run { token := { access_token := "T1", expired_at := 4600,
                       force_refresh := none },
            refreshing := false, writerHeld := false,
            threads := [{ pc := .fastRead, flavor := .stable,
                          force_refresh := force }],
            oracle := [.ok ("T2", 7200)], fetchLog := [], now := 1000 }
        [0]).threads.map Thread.pc = [.done (.ok "T1")]) ∧
    ((run { token := { access_token := "T1", expired_at := 4600,
                       force_refresh := none },
            refreshing := false, writerHeld := false,
            threads := [{ pc := .fastRead, flavor := .stable,
                          force_refresh := force }],
            oracle := [.ok ("T2", 7200)], fetchLog := [], now := 1000 }
        [0]).fetchLog = []) :=
  ⟨rfl, rfl⟩

/-- C1 counterexample: two concurrent calls both arriving while the token
is stale can invoke the fetch twice — the first winner's fetch fails, the
second caller then wins the released flag, double-checks (still stale) and
fetches again. -/
theorem single_flight_exactly_once_counterexample :
    is_token_expired (initSys 1000 [(.normal, none), (.normal, none)]
      [.error (.internalServer "boom"), .ok ("T2", 7200)]).token 1000 = true ∧
    (run (initSys 1000 [(.normal, none), (.normal, none)]
        [.error (.internalServer "boom"), .ok ("T2", 7200)])
        [0, 1, 0, 0, 0, 0, 0, 0, 1, 1, 1, 1, 1, 1]).fetchLog.length = 2 ∧
    (run (initSys 1000 [(.normal, none), (.normal, none)]
        [.error (.internalServer "boom"), .ok ("T2", 7200)])
        [0, 1, 0, 0, 0, 0, 0, 0, 1, 1, 1, 1, 1, 1]).threads.map Thread.pc
      = [.done (.error (.internalServer "boom")), .done (.ok "T2")] :=
  ⟨rfl, rfl, rfl⟩

/-- C1 (amended): in every state reachable from a freshly constructed
client, at most one caller holds refresh ownership (from CAS win to
`store(false)`) and hence at most one fetch is in flight at a time; but
after a failed winner the fetch can be invoked a second, non-overlapping
time by a concurrently arrived caller. -/
theorem single_flight_mutual_exclusion (now : Int)
    (callers : List (Flavor × Option Bool)) (oracle : List FetchResult)
    (s : Sys) (hr : Reachable (initSys now callers oracle) s) :
    countB Thread.owns s.threads ≤ 1 ∧
    countB Thread.inFetch s.threads ≤ 1 := by
  have ho := ownerInv_reachable hr (ownerInv_initSys now callers oracle)
  refine ⟨ho.1, le_trans ?_ ho.1⟩
  exact countB_mono Thread.inFetch Thread.owns owns_of_inFetch s.threads

theorem single_flight_mutual_exclusion_witness :
    countB Thread.owns (initSys 0 [(.normal, none), (.normal, none)] []).threads ≤ 1 ∧
    countB Thread.inFetch (initSys 0 [(.normal, none), (.normal, none)] []).threads ≤ 1 :=
  single_flight_mutual_exclusion 0 [(.normal, none), (.normal, none)] [] _
    Relation.ReflTransGen.refl

/-- C3 counterexample: while thread 0's fetch is in flight the write lock
is held, and thread 1's fast-path read step is disabled — a concurrent
fast-path read cannot complete during the network call. -/
theorem reader_blocked_during_fetch_counterexample :
    ((run (initSys 1000 [(.normal, none), (.normal, none)] [.ok ("T2", 7200)])
        [0, 0, 0, 0]).threads.map Thread.pc
      = [.fetching (.ok ("T2", 7200)), .fastRead]) ∧
    step (run (initSys 1000 [(.normal, none), (.normal, none)]
        [.ok ("T2", 7200)]) [0, 0, 0, 0]) 1 = none :=
  ⟨rfl, rfl⟩

/-- C3 (amended): whenever a fetch is in flight the `RwLock` write guard is
held (the winner holds it across the network call), and while it is held
every fast-path read step is blocked. -/
theorem fetch_holds_write_lock (now : Int)
    (callers : List (Flavor × Option Bool)) (oracle : List FetchResult)
    (s : Sys) (hr : Reachable (initSys now callers oracle) s)
    (i : Nat) (t : Thread) (ht : s.threads[i]? = some t)
    (hf : t.inFetch = true) :
    s.writerHeld = true ∧
    (∀ j u, s.threads[j]? = some u → u.pc = .fastRead → step s j = none) := by
  have hw := writerInv_reachable hr (writerInv_initSys now callers oracle)
  have hin : t.inWrite = true := by
    cases hp : t.pc <;> simp [Thread.inFetch, hp] at hf <;>
      simp [Thread.inWrite, hp]
  have hpos : 1 ≤ countB Thread.inWrite s.threads :=
    countB_pos Thread.inWrite s.threads i t ht hin
  have hwh : s.writerHeld = true := by
    cases hwc : s.writerHeld
    · have := hw.2 hwc
      omega
    · rfl
  exact ⟨hwh, fun j u hj hu => step_fastRead_blocked hj hu hwh⟩

theorem fetch_holds_write_lock_witness :
    (run (initSys 1000 [(.normal, none), (.normal, none)] [.ok ("T2", 7200)])
      [0, 0, 0, 0]).writerHeld = true ∧
    (∀ j u, (run (initSys 1000 [(.normal, none), (.normal, none)]
        [.ok ("T2", 7200)]) [0, 0, 0, 0]).threads[j]? = some u →
      u.pc = .fastRead →
      step (run (initSys 1000 [(.normal, none), (.normal, none)]
        [.ok ("T2", 7200)]) [0, 0, 0, 0]) j = none) :=
  fetch_holds_write_lock 1000 [(.normal, none), (.normal, none)]
    [.ok ("T2", 7200)] _ (reachable_run _ _) 0
    { pc := .fetching (.ok ("T2", 7200)), flavor := .normal,
      force_refresh := none } rfl rfl

/-- C5: when the winner's fetch fails, the next three micro-steps of the
winner leave the token state unchanged, reset `refreshing` to `false`,
broadcast the wakeup (every registered waiter moves to `woken`), and return
the fetch's error to the winner's own caller. -/
theorem fetch_failure_resets_flag_and_broadcasts (s : Sys) (i : Nat)
    (t : Thread) (e : Error) (ht : s.threads[i]? = some t)
    (hpc : t.pc = .fetching (.error e)) :
    ∃ s1 s2 s3,
      step s i = some s1 ∧ step s1 i = some s2 ∧ step s2 i = some s3 ∧
      s3.token = s.token ∧
      s3.refreshing = false ∧
      s3.threads[i]? = some { t with pc := .done (.error e) } ∧
      (∀ j u, j ≠ i → s.threads[j]? = some u → u.pc = .waiting →
        s3.threads[j]? = some { u with pc := .woken }) := by
  have hlen : i < s.threads.length := (List.getElem?_eq_some.mp ht).1
  refine ⟨{ s with
              writerHeld := false,
              threads := s.threads.set i
                { t with pc := .storeFalse (.error e) } },
    { s with
        writerHeld := false,
        refreshing := false,
        threads := s.threads.set i
          { t with pc := .notifyWaiters (.error e) } },
    { s with
        writerHeld := false,
        refreshing := false,
        threads := ((s.threads.set i
            { t with pc := .notifyWaiters (.error e) }).map wake).set i
          { t with pc := .done (.error e) } },
    ?_, ?_, ?_, rfl, rfl, ?_, ?_⟩
  · unfold step
    simp [ht, hpc]
  · unfold step
    simp [List.getElem?_set_self hlen, List.set_set]
  · unfold step
    simp [List.getElem?_set_self hlen]
  · exact List.getElem?_set_self (by simpa using hlen)
  · intro j u hji hju hwu
    rw [List.getElem?_set_ne hji.symm, List.getElem?_map,
      List.getElem?_set_ne hji.symm, hju]
    simp [wake, hwu]

theorem fetch_failure_resets_flag_and_broadcasts_witness :
    ∃ s1 s2 s3,
      step { token := { access_token := "", expired_at := 1000,
                        force_refresh := none },
             refreshing := true, writerHeld := true,
             threads := [{ pc := .fetching (.error (.internalServer "down")),
                           flavor := .normal, force_refresh := none },
                         { pc := .waiting, flavor := .normal,
                           force_refresh := none }],
             oracle := [], fetchLog := [(.normal, none)], now := 1000 } 0
        = some s1 ∧
      step s1 0 = some s2 ∧ step s2 0 = some s3 ∧
      s3.token = ({ token := { access_token := "", expired_at := 1000,
                               force_refresh := none },
                    refreshing := true, writerHeld := true,
                    threads := [{ pc := .fetching (.error (.internalServer "down")),
                                  flavor := .normal, force_refresh := none },
                                { pc := .waiting, flavor := .normal,
                                  force_refresh := none }],
                    oracle := [], fetchLog := [(.normal, none)],
                    now := 1000 } : Sys).token ∧
      s3.refreshing = false ∧
      s3.threads[0]? = some { pc := .done (.error (.internalServer "down")),
                              flavor := .normal, force_refresh := none } ∧
      (∀ j u, j ≠ 0 →
        ({ token := { access_token := "", expired_at := 1000,
                      force_refresh := none },
           refreshing := true, writerHeld := true,
           threads := [{ pc := .fetching (.error (.internalServer "down")),
                         flavor := .normal, force_refresh := none },
                       { pc := .waiting, flavor := .normal,
                         force_refresh := none }],
           oracle := [], fetchLog := [(.normal, none)],
           now := 1000 } : Sys).threads[j]? = some u → u.pc = .waiting →
        s3.threads[j]? = some { u with pc := .woken }) :=
  fetch_failure_resets_flag_and_broadcasts
    { token := { access_token := "", expired_at := 1000,
                 force_refresh := none },
      refreshing := true, writerHeld := true,
      threads := [{ pc := .fetching (.error (.internalServer "down")),
                    flavor := .normal, force_refresh := none },
                  { pc := .waiting, flavor := .normal,
                    force_refresh := none }],
      oracle := [], fetchLog := [(.normal, none)], now := 1000 } 0
    { pc := .fetching (.error (.internalServer "down")),
      flavor := .normal, force_refresh := none }
    (.internalServer "down") rfl rfl

/-- C6: a caller that has lost the CAS arbitration stays on the loser path
in every reachable continuation — it never holds refresh ownership, never
has a fetch in flight, and whenever its call completes the result is `Ok`
(never the winner's error). -/
theorem loser_never_errors_never_fetches (s s' : Sys) (i : Nat) (t : Thread)
    (hr : Reachable s s') (ht : s.threads[i]? = some t) (hl : t.lost = true) :
    ∀ t', s'.threads[i]? = some t' →
      (t'.lost = true ∨ ∃ v, t'.pc = .done (Except.ok v)) ∧
      t'.owns = false ∧ t'.inFetch = false := by
  have hP : LoserSafe i s.threads := by
    intro u hu
    rw [ht] at hu
    cases hu
    exact Or.inl hl
  have hQ := loserSafe_reachable hr i hP
  intro t' ht'
  rcases hQ t' ht' with hcase | ⟨v, hv⟩
  · refine ⟨Or.inl hcase, ?_, ?_⟩
    · cases hp : t'.pc <;> simp [Thread.lost, hp] at hcase <;>
        simp [Thread.owns, hp]
    · cases hp : t'.pc <;> simp [Thread.lost, hp] at hcase <;>
        simp [Thread.inFetch, hp]
  · exact ⟨Or.inr ⟨v, hv⟩, by simp [Thread.owns, hv],
      by simp [Thread.inFetch, hv]⟩

theorem loser_never_errors_never_fetches_witness :
    (({ pc := .waiting, flavor := .normal,
        force_refresh := none } : Thread).lost = true ∨
      ∃ v, ({ pc := .waiting, flavor := .normal,
              force_refresh := none } : Thread).pc = .done (Except.ok v)) ∧
    ({ pc := .waiting, flavor := .normal,
       force_refresh := none } : Thread).owns = false ∧
    ({ pc := .waiting, flavor := .normal,
       force_refresh := none } : Thread).inFetch = false :=
  loser_never_errors_never_fetches
    { token := { access_token := "T0", expired_at := 0,
                 force_refresh := none },
      refreshing := true, writerHeld := true,
      threads := [{ pc := .doubleCheck, flavor := .normal,
                    force_refresh := none },
                  { pc := .waiting, flavor := .normal,
                    force_refresh := none }],
      oracle := [.error (.system "busy")], fetchLog := [], now := 1000 }
    { token := { access_token := "T0", expired_at := 0,
                 force_refresh := none },
      refreshing := true, writerHeld := true,
      threads := [{ pc := .doubleCheck, flavor := .normal,
                    force_refresh := none },
                  { pc := .waiting, flavor := .normal,
                    force_refresh := none }],
      oracle := [.error (.system "busy")], fetchLog := [], now := 1000 } 1
    { pc := .waiting, flavor := .normal, force_refresh := none }
    Relation.ReflTransGen.refl rfl rfl
    { pc := .waiting, flavor := .normal, force_refresh := none } rfl

/-- C7 (code bug): the lost-wakeup schedule — the loser fails its CAS, the
winner completes its whole refresh and calls `notify_waiters` before the
loser's `notified()` future registers, and the loser then suspends in a
state where no thread has any enabled step: its call never terminates. -/
theorem lost_wakeup_deadlock :
    ((run (initSys 1000 [(.normal, none), (.normal, none)] [.ok ("T1", 7200)])
        [0, 1, 0, 1, 0, 0, 0, 0, 0, 1]).threads.map Thread.pc
      = [.done (.ok "T1"), .waiting]) ∧
    (∀ j, step (run (initSys 1000 [(.normal, none), (.normal, none)]
        [.ok ("T1", 7200)]) [0, 1, 0, 1, 0, 0, 0, 0, 0, 1]) j = none) := by
  refine ⟨rfl, fun j => ?_⟩
  match j with
  | 0 => rfl
  | 1 => rfl
  | k + 2 =>
    have hL : (run (initSys 1000 [(.normal, none), (.normal, none)]
        [.ok ("T1", 7200)]) [0, 1, 0, 1, 0, 0, 0, 0, 0, 1]).threads.length
        = 2 := rfl
    exact step_eq_none_of_no_thread (List.getElem?_eq_none (by omega))

/-- C8 counterexample: on one client, a `stable_access_token` call
refreshes the shared state and a subsequent `access_token` (normal flavor)
call returns the very token fetched through the stable endpoint, with no
second fetch — the two flavors read and mutate the same token state,
refresh flag and wakeup signal. -/
theorem flavors_share_state_counterexample :
    ((run (initSys 1000 [(.stable, some true), (.normal, none)]
        [.ok ("S1", 7200)]) [0, 0, 0, 0, 0, 0, 0, 1]).threads.map Thread.pc
      = [.done (.ok "S1"), .done (.ok "S1")]) ∧
    ((run (initSys 1000 [(.stable, some true), (.normal, none)]
        [.ok ("S1", 7200)]) [0, 0, 0, 0, 0, 0, 0, 1]).fetchLog
      = [(.stable, some true)]) :=
  ⟨rfl, rfl⟩

/-- C8 (amended): within one `Client`, the normal and stable flavors share
a single coordinator — one token state, one `refreshing` flag, one notify
channel — so a normal-flavor fast path returns whatever a stable-flavor
refresh installed (for every fetched value and force argument); flavor
separation exists only in which constructor selects the dispatch:
`Client::new` routes `token()` to the stable flavor and
`Client::with_non_stable` to the normal flavor. -/
theorem flavors_share_single_coordinator (v : String) (force : Option Bool)
    (app_id secret : String) :
    ((run (initSys 1000 [(.stable, force), (.normal, none)] [.ok (v, 7200)])
        [0, 0, 0, 0, 0, 0, 0, 1]).threads.map Thread.pc
      = [.done (.ok v), .done (.ok v)]) ∧
    ((run (initSys 1000 [(.stable, force), (.normal, none)] [.ok (v, 7200)])
        [0, 0, 0, 0, 0, 0, 0, 1]).fetchLog = [(.stable, force)]) ∧
    (Client.new app_id secret).tokenFlavor = .stable ∧
    (Client.with_non_stable app_id secret).tokenFlavor = .normal := by
  have h0 : step (initSys 1000 [(.stable, force), (.normal, none)]
      [.ok (v, 7200)]) 0 = some
      { token := { access_token := "", expired_at := 1000,
                   force_refresh := none },
        refreshing := false, writerHeld := false,
        threads := [{ pc := .cas, flavor := .stable, force_refresh := force },
                    { pc := .fastRead, flavor := .normal,
                      force_refresh := none }],
        oracle := [.ok (v, 7200)], fetchLog := [], now := 1000 } := rfl
  have h1 : step
      { token := { access_token := "", expired_at := 1000,
                   force_refresh := none },
        refreshing := false, writerHeld := false,
        threads := [{ pc := .cas, flavor := .stable, force_refresh := force },
                    { pc := .fastRead, flavor := .normal,
                      force_refresh := none }],
        oracle := [.ok (v, 7200)], fetchLog := [], now := 1000 } 0 = some
      { token := { access_token := "", expired_at := 1000,
                   force_refresh := none },
        refreshing := true, writerHeld := false,
        threads := [{ pc := .acquireWrite, flavor := .stable,
                      force_refresh := force },
                    { pc := .fastRead, flavor := .normal,
                      force_refresh := none }],
        oracle := [.ok (v, 7200)], fetchLog := [], now := 1000 } := rfl
  have h2 : step
      { token := { access_token := "", expired_at := 1000,
                   force_refresh := none },
        refreshing := true, writerHeld := false,
        threads := [{ pc := .acquireWrite, flavor := .stable,
                      force_refresh := force },
                    { pc := .fastRead, flavor := .normal,
                      force_refresh := none }],
        oracle := [.ok (v, 7200)], fetchLog := [], now := 1000 } 0 = some
      { token := { access_token := "", expired_at := 1000,
                   force_refresh := none },
        refreshing := true, writerHeld := true,
        threads := [{ pc := .doubleCheck, flavor := .stable,
                      force_refresh := force },
                    { pc := .fastRead, flavor := .normal,
                      force_refresh := none }],
        oracle := [.ok (v, 7200)], fetchLog := [], now := 1000 } := rfl
  have h3 : step
      { token := { access_token := "", expired_at := 1000,
                   force_refresh := none },
        refreshing := true, writerHeld := true,
        threads := [{ pc := .doubleCheck, flavor := .stable,
                      force_refresh := force },
                    { pc := .fastRead, flavor := .normal,
                      force_refresh := none }],
        oracle := [.ok (v, 7200)], fetchLog := [], now := 1000 } 0 = some
      { token := { access_token := "", expired_at := 1000,
                   force_refresh := none },
        refreshing := true, writerHeld := true,
        threads := [{ pc := .fetching (.ok (v, 7200)), flavor := .stable,
                      force_refresh := force },
                    { pc := .fastRead, flavor := .normal,
                      force_refresh := none }],
        oracle := [], fetchLog := [(.stable, force)], now := 1000 } := rfl
  have h4 : step
      { token := { access_token := "", expired_at := 1000,
                   force_refresh := none },
        refreshing := true, writerHeld := true,
        threads := [{ pc := .fetching (.ok (v, 7200)), flavor := .stable,
                      force_refresh := force },
                    { pc := .fastRead, flavor := .normal,
                      force_refresh := none }],
        oracle := [], fetchLog := [(.stable, force)], now := 1000 } 0 = some
      { token := { access_token := v, expired_at := 1000 + 7200,
                   force_refresh := none },
        refreshing := true, writerHeld := false,
        threads := [{ pc := .storeFalse (.ok v), flavor := .stable,
                      force_refresh := force },
                    { pc := .fastRead, flavor := .normal,
                      force_refresh := none }],
        oracle := [], fetchLog := [(.stable, force)], now := 1000 } := rfl
  have h5 : step
      { token := { access_token := v, expired_at := 1000 + 7200,
                   force_refresh := none },
        refreshing := true, writerHeld := false,
        threads := [{ pc := .storeFalse (.ok v), flavor := .stable,
                      force_refresh := force },
                    { pc := .fastRead, flavor := .normal,
                      force_refresh := none }],
        oracle := [], fetchLog := [(.stable, force)], now := 1000 } 0 = some
      { token := { access_token := v, expired_at := 1000 + 7200,
                   force_refresh := none },
        refreshing := false, writerHeld := false,
        threads := [{ pc := .notifyWaiters (.ok v), flavor := .stable,
                      force_refresh := force },
                    { pc := .fastRead, flavor := .normal,
                      force_refresh := none }],
        oracle := [], fetchLog := [(.stable, force)], now := 1000 } := rfl
  have h6 : step
      { token := { access_token := v, expired_at := 1000 + 7200,
                   force_refresh := none },
        refreshing := false, writerHeld := false,
        threads := [{ pc := .notifyWaiters (.ok v), flavor := .stable,
                      force_refresh := force },
                    { pc := .fastRead, flavor := .normal,
                      force_refresh := none }],
        oracle := [], fetchLog := [(.stable, force)], now := 1000 } 0 = some
      { token := { access_token := v, expired_at := 1000 + 7200,
                   force_refresh := none },
        refreshing := false, writerHeld := false,
        threads := [{ pc := .done (.ok v), flavor := .stable,
                      force_refresh := force },
                    { pc := .fastRead, flavor := .normal,
                      force_refresh := none }],
        oracle := [], fetchLog := [(.stable, force)], now := 1000 } := rfl
  have h7 : step
      { token := { access_token := v, expired_at := 1000 + 7200,
                   force_refresh := none },
        refreshing := false, writerHeld := false,
        threads := [{ pc := .done (.ok v), flavor := .stable,
                      force_refresh := force },
                    { pc := .fastRead, flavor := .normal,
                      force_refresh := none }],
        oracle := [], fetchLog := [(.stable, force)], now := 1000 } 1 = some
      { token := { access_token := v, expired_at := 1000 + 7200,
                   force_refresh := none },
        refreshing := false, writerHeld := false,
        threads := [{ pc := .done (.ok v), flavor := .stable,
                      force_refresh := force },
                    { pc := .done (.ok v), flavor := .normal,
                      force_refresh := none }],
        oracle := [], fetchLog := [(.stable, force)], now := 1000 } := rfl
  have hrun : run (initSys 1000 [(.stable, force), (.normal, none)]
      [.ok (v, 7200)]) [0, 0, 0, 0, 0, 0, 0, 1] =
      { token := { access_token := v, expired_at := 1000 + 7200,
                   force_refresh := none },
        refreshing := false, writerHeld := false,
        threads := [{ pc := .done (.ok v), flavor := .stable,
                      force_refresh := force },
                    { pc := .done (.ok v), flavor := .normal,
                      force_refresh := none }],
        oracle := [], fetchLog := [(.stable, force)], now := 1000 } := by
    simp only [run, h0, h1, h2, h3, h4, h5, h6, h7, Option.getD_some]
  rw [hrun]
  exact ⟨rfl, rfl, rfl, rfl⟩

/-- C9: a freshly constructed client holds the empty-string sentinel token,
and a caller that loses arbitration to a first-ever refresh whose fetch
fails returns `Ok ""` — a success result carrying no usable token. -/
theorem losing_caller_returns_ok_empty :
    (initSys 1000 [(.normal, none), (.normal, none)]
        [.error (.internalServer "wx down")]).token = initialToken 1000 ∧
    (initialToken 1000).access_token = "" ∧
    ((run (initSys 1000 [(.normal, none), (.normal, none)]
        [.error (.internalServer "wx down")])
        [0, 1, 0, 1, 1, 0, 0, 0, 0, 0, 1]).threads.map Thread.pc
      = [.done (.error (.internalServer "wx down")), .done (.ok "")]) :=
  ⟨rfl, rfl, rfl⟩

end WechatMinapp
